import Mathlib

/-!
Verification of the RAG pipeline of `rag-service/app` (rag_pipeline.py,
model_clients.py) against its design document.  The Python functions are
shallowly embedded: payload values are modelled by their string renderings
(Python formats every payload value with `str`/f-strings before use), Python
dictionaries carrying the fixed set of fields the pipeline inspects become
records of `Option String`, Python truthiness of a possibly-missing string
value becomes `truthy`, exceptions become `Except`, and the external
capabilities (embedding model, vector store, LLM endpoint) become explicit
environment parameters describing the outcome of each external call.
-/

namespace Rag

/-- Python truthiness of `payload.get(field)` for a string-valued field:
`None` and the empty string are falsy. -/
def truthy : Option String → Bool
  | none => false
  | some s => !s.isEmpty

/-- The payload fields `rag_pipeline.py` inspects (values as their string
renderings; `none` = key absent). -/
structure Payload where
  text : Option String := none
  narration : Option String := none
  description : Option String := none
  content : Option String := none
  amount : Option String := none
  date : Option String := none
  account_id : Option String := none
  transaction_id : Option String := none
  collection : Option String := none
deriving Repr, DecidableEq

/-- A payload with no fields set (Python `{}`). -/
def emptyPayload : Payload := {}

/-- The formatted hit record built by `retrieve_top_k`:
`{"id": hit.id, "score": hit.score, "payload": payload}`. -/
structure Hit where
  id : String
  score : Int
  payload : Payload
deriving Repr, DecidableEq

/-- A raw store hit as returned by the Qdrant client: its payload may be
`None` (`hit.payload or {}` in the source). -/
structure RawHit where
  id : String
  score : Int
  payload : Option Payload
deriving Repr, DecidableEq

/-- `rag_pipeline.retrieve_top_k`, result formatting: `payload = hit.payload or {}`. -/
def formatHit (r : RawHit) : Hit :=
  { id := r.id, score := r.score, payload := r.payload.getD emptyPayload }

/-- `build_prompt`: body text of one hit,
`payload.get("text") or payload.get("narration") or payload.get("description") or payload.get("content") or ""`. -/
def bodyText (p : Payload) : String :=
  if truthy p.text then p.text.getD ""
  else if truthy p.narration then p.narration.getD ""
  else if truthy p.description then p.description.getD ""
  else if truthy p.content then p.content.getD ""
  else ""

/-- `build_prompt`: the `metadata_parts` list, in source order, with the
source's labels (`account:` for `account_id`, `source:` for `collection`). -/
def metadataParts (p : Payload) : List String :=
  (if truthy p.amount then ["amount: " ++ p.amount.getD ""] else []) ++
  (if truthy p.date then ["date: " ++ p.date.getD ""] else []) ++
  (if truthy p.account_id then ["account: " ++ p.account_id.getD ""] else []) ++
  (if truthy p.transaction_id then ["transaction_id: " ++ p.transaction_id.getD ""] else []) ++
  (if truthy p.collection then ["source: " ++ p.collection.getD ""] else [])

/-- `build_prompt`: `metadata_str = ", ".join(metadata_parts)`. -/
def metadataStr (p : Payload) : String :=
  String.intercalate ", " (metadataParts p)

/-- `build_prompt`: the rendered context entry of the hit at 0-based
enumeration index `i`. -/
def renderEntry (i : Nat) (h : Hit) : String :=
  let base := "[Source " ++ toString (i + 1) ++ "] id:" ++ h.id
  let withMeta := if metadataStr h.payload ≠ "" then base ++ " " ++ metadataStr h.payload else base
  withMeta ++ "\n" ++ bodyText h.payload

/-- The selection loop of `build_prompt`: `i` is the enumeration index,
`cur` the running `current_length`, and `nonempty` records whether
`context_parts` already holds an entry (the loop only ever appends, so the
list is non-empty exactly after the first admission).  The `break` becomes
returning `[]` for the remaining hits. -/
def contextPartsAux (maxLen : Nat) : Nat → Nat → Bool → List Hit → List String
  | _, _, _, [] => []
  | i, cur, nonempty, h :: rest =>
    let entry := renderEntry i h
    if cur + entry.length > maxLen && nonempty then []
    else entry :: contextPartsAux maxLen (i + 1) (cur + entry.length) true rest

/-- The `context_parts` list `build_prompt` assembles for a hit list. -/
def contextParts (maxLen : Nat) (hits : List Hit) : List String :=
  contextPartsAux maxLen 0 0 false hits

/-- `rag_pipeline.build_prompt` (`max_context_length` passed explicitly;
the source default is 2000). -/
def build_prompt (query : String) (hits : List Hit) (maxContextLength : Nat) : String :=
  let context := String.intercalate "\n\n" (contextParts maxContextLength hits)
  "You are an expert AI Audit Assistant. Use ONLY the CONTEXT below to answer the QUESTION.\n\nIf the answer is not present in the context, reply \"I don't know\" or \"The information is not available in the provided context.\"\n\nCONTEXT:\n" ++
  context ++
  "\n\nQUESTION:\n" ++ query ++
  "\n\nINSTRUCTIONS:\n- Answer concisely and accurately based ONLY on the context provided\n- If you reference numbers, amounts, or dates, ensure they match the context\n- At the end, list the source IDs you used (e.g., \"Sources: [Source 1, Source 2]\")\n- If the context doesn't contain relevant information, say so clearly\n\nRESPONSE:\n"

/-- Python `\s` on ASCII text: space, tab, newline, vertical tab, form feed,
carriage return. -/
def isSpaceChar (c : Char) : Bool :=
  c = ' ' || c = '\t' || c = '\n' || c = Char.ofNat 11 || c = Char.ofNat 12 || c = '\r'

/-- `\d` of the extraction pattern (ASCII digits). -/
def isDigitChar (c : Char) : Bool := c.isDigit

/-- `\d{1,3}` matched greedily at the head of the input: up to three leading
digits, with the remainder; `none` when the head is not a digit. -/
def takeDigits13 : List Char → Option (List Char × List Char)
  | [] => none
  | c1 :: r1 =>
    if isDigitChar c1 then
      match r1 with
      | c2 :: r2 =>
        if isDigitChar c2 then
          match r2 with
          | c3 :: r3 => if isDigitChar c3 then some ([c1, c2, c3], r3) else some ([c1, c2], r2)
          | [] => some ([c1, c2], [])
        else some ([c1], r1)
      | [] => some ([c1], [])
    else none

/-- `(?:,\d{3})*` matched greedily at the head of the input: the matched
characters and the remainder. -/
def takeCommaGroups : List Char → List Char × List Char
  | c :: d1 :: d2 :: d3 :: rest =>
    if c = ',' && isDigitChar d1 && isDigitChar d2 && isDigitChar d3 then
      let pr := takeCommaGroups rest
      (c :: d1 :: d2 :: d3 :: pr.1, pr.2)
    else ([], c :: d1 :: d2 :: d3 :: rest)
  | cs => ([], cs)

/-- `(?:\.\d+)?` matched greedily at the head of the input. -/
def takeFraction : List Char → List Char × List Char
  | c :: rest =>
    if c = '.' then
      let ds := rest.takeWhile isDigitChar
      if ds.isEmpty then ([], c :: rest) else (c :: ds, rest.dropWhile isDigitChar)
    else ([], c :: rest)
  | [] => ([], [])

/-- `\$?`: consume one leading dollar sign if present. -/
def stripDollar : List Char → List Char
  | c :: r => if c = '$' then r else c :: r
  | [] => []

/-- The capture group `(\d{1,3}(?:,\d{3})*(?:\.\d+)?)` matched at the head
of the (dollar- and space-stripped) input: the captured characters and the
remainder. -/
def matchNumberCore (cs2 : List Char) : Option (List Char × List Char) :=
  match takeDigits13 cs2 with
  | none => none
  | some (ds, r1) =>
    let g := takeCommaGroups r1
    let f := takeFraction g.2
    some (ds ++ g.1 ++ f.1, f.2)

/-- One attempt of the pattern `\$?\s*(\d{1,3}(?:,\d{3})*(?:\.\d+)?)` at the
current position: on success, the captured group and the input after the full
match.  (Since everything after `\d{1,3}` in the pattern is optional, the
greedy scan needs no backtracking.) -/
def matchNumberAt (cs : List Char) : Option (List Char × List Char) :=
  matchNumberCore ((stripDollar cs).dropWhile isSpaceChar)

/-- `re.findall` of the extraction pattern: scan left to right, at each
position emit the captured group of a match and resume after the full match,
else advance one character.  `fuel` bounds the recursion; any
`fuel ≥ cs.length` computes the scan (each step consumes at least one
character). -/
def findAmountsAux : Nat → List Char → List String
  | 0, _ => []
  | _, [] => []
  | fuel + 1, c :: cs =>
    match matchNumberAt (c :: cs) with
    | some (tok, rest) => String.mk tok :: findAmountsAux fuel rest
    | none => findAmountsAux fuel cs

/-- `amounts_in_answer = re.findall(amount_pattern, answer)` in
`verify_numeric_claims`. -/
def findAmounts (answer : String) : List String :=
  findAmountsAux answer.data.length answer.data

/-- `str(x).replace(",", "").replace("$", "")`: drop every comma and dollar
sign. -/
def normalizeAmount (s : String) : String :=
  String.mk ((s.data.filter (· ≠ ',')).filter (· ≠ '$'))

/-- `verify_numeric_claims`: the `hit_amounts` list — the `amount` payload
value of every hit that has one, normalized, in hit order. -/
def hitAmountsOf (hits : List Hit) : List String :=
  (hits.filterMap (fun h => h.payload.amount)).map normalizeAmount

/-- `verify_numeric_claims`: the `mismatches` loop — every extracted token
(original form) whose normalization is not among the (re-normalized) hit
amounts. -/
def verifyMismatches (tokens : List String) (hitAmounts : List String) : List String :=
  tokens.filter (fun t => !((hitAmounts.map normalizeAmount).contains (normalizeAmount t)))

/-- The warning string `verify_numeric_claims` builds from its `mismatches`. -/
def mkWarning (mismatches : List String) : String :=
  "\n\n[VERIFICATION WARNING] Some numeric claims (" ++ String.intercalate ", " mismatches ++
  ") could not be verified from retrieved sources."

/-- `rag_pipeline.verify_numeric_claims`. -/
def verify_numeric_claims (answer : String) (hits : List Hit) : Bool × String :=
  let tokens := findAmounts answer
  if tokens.isEmpty then (true, "")
  else
    let mismatches := verifyMismatches tokens (hitAmountsOf hits)
    if !mismatches.isEmpty then (false, mkWarning mismatches)
    else (true, "")

/-- Exceptions the Ollama HTTP call in `model_clients.call_local_llama` can
raise: `httpx.TimeoutException`, `httpx.RequestError` (transport failure),
and anything else (`raise_for_status` on a bad status, JSON decoding, ...),
caught by the final `except Exception` handler. -/
inductive PyExc where
  | timeoutExc : PyExc
  | requestExc (msg : String) : PyExc
  | otherExc (msg : String) : PyExc
deriving Repr, DecidableEq

/-- Outcome of the HTTP round trip inside `call_local_llama`: a raised
exception, or a decoded 2xx JSON body.  A body is described by the two
fields the parser inspects: `messageContent` is
`data["message"]["content"]` when `data.get("message")` is truthy (`none`
when the `message` object or its `content` is absent), `responseField` is
`data.get("response")`. -/
inductive HttpOutcome where
  | exc (e : PyExc) : HttpOutcome
  | body (messageContent : Option String) (responseField : Option String) : HttpOutcome
deriving Repr, DecidableEq

/-- The `try` body of `call_local_llama` up to and including `response.json()`. -/
def ollamaHttpCall : HttpOutcome → Except PyExc (Option String × Option String)
  | .exc e => .error e
  | .body mc rf => .ok (mc, rf)

/-- `model_clients.call_local_llama`, as a function of the HTTP outcome.  It
is total — every exception of the call is caught by one of the three
`except` clauses and converted into a returned string, so the function never
raises to its caller. -/
def call_local_llama (outcome : HttpOutcome) : String :=
  match ollamaHttpCall outcome with
  | .ok (mc, rf) =>
    if truthy mc then mc.getD ""
    else if truthy rf then rf.getD ""
    else "I apologize, but I couldn't generate a response."
  | .error .timeoutExc => "Request timed out. Please try again."
  | .error (.requestExc m) => "I encountered an error connecting to the LLM service: " ++ m
  | .error (.otherExc m) => "An unexpected error occurred: " ++ m

/-- One Qdrant `FieldCondition(key=key, match=MatchValue(value=value))`. -/
structure FieldCondition where
  key : String
  value : String
deriving Repr, DecidableEq

/-- A Qdrant `Filter(must=conditions)`: the conjunction of its conditions. -/
structure StoreFilter where
  must : List FieldCondition
deriving Repr, DecidableEq

/-- `retrieve_top_k`: translation of `filter_dict` (an insertion-ordered
association list, `none` = argument absent) into the Qdrant filter.
`query_filter` stays `None` when `filter_dict` is falsy (absent or empty)
or when the built condition list is empty. -/
def buildQueryFilter (filter_dict : Option (List (String × String))) : Option StoreFilter :=
  match filter_dict with
  | none => none
  | some l =>
    if l.isEmpty then none
    else
      let conditions := l.map (fun kv => FieldCondition.mk kv.1 kv.2)
      if conditions.isEmpty then none else some (StoreFilter.mk conditions)

/-- The external world of `retrieve_top_k`: whether the module-level Qdrant
client is initialized, what a reconnect attempt would do, what the embedding
model returns for the query, and what the store search returns for a given
vector, limit and filter.  Each fallible step is an `Except`, its `error`
meaning a raised exception (with the exception's text). -/
structure StoreEnv where
  connected : Bool
  reconnect : Except String Unit
  embed : Except String (List Int)
  search : List Int → Nat → Option StoreFilter → Except String (List RawHit)

/-- The `try` body of `retrieve_top_k`: embed the query, build the filter,
search, format the hits. -/
def retrieveBody (env : StoreEnv) (k : Nat)
    (filter_dict : Option (List (String × String))) : List Hit :=
  match env.embed with
  | .error _ => []
  | .ok queryVector =>
    let queryFilter := buildQueryFilter filter_dict
    match env.search queryVector k queryFilter with
    | .error _ => []
    | .ok raw => raw.map formatHit

/-- `rag_pipeline.retrieve_top_k` (the query string only feeds the embedding,
which `env.embed` already describes).  Total: every failure path returns `[]`
instead of raising. -/
def retrieve_top_k (env : StoreEnv) (k : Nat)
    (filter_dict : Option (List (String × String))) : List Hit :=
  if !env.connected then
    match env.reconnect with
    | .error _ => []
    | .ok _ => retrieveBody env k filter_dict
  else retrieveBody env k filter_dict

/-- The dictionary `answer_query` returns.  `query` and `error` are `Option`
because two of the three return paths omit one of these keys. -/
structure RagResult where
  answer : String
  sources : List String
  hits : List Hit
  retrieval_count : Nat
  query : Option String
  error : Option String
deriving Repr, DecidableEq

/-- `s.lower()` (ASCII). -/
def lowerStr (s : String) : String := String.mk (s.data.map Char.toLower)

/-- Python `s.strip()`: drop leading and trailing whitespace. -/
def stripWS (s : String) : String :=
  String.mk (((s.data.dropWhile isSpaceChar).reverse.dropWhile isSpaceChar).reverse)

/-- Python `pat in s`: substring membership. -/
def containsSubstr (s pat : String) : Bool :=
  s.data.tails.any (fun t => pat.data.isPrefixOf t)

/-- The error-message rewriting in the catch-all handler of `answer_query`. -/
def rewriteErrorMessage (e : String) : String :=
  if containsSubstr e "Qdrant" || containsSubstr (lowerStr e) "connection" then
    "I couldn't connect to the vector database. Please ensure Qdrant is running and accessible."
  else if containsSubstr e "Ollama" || containsSubstr e "LLM" then
    "I couldn't connect to the language model. Please ensure Ollama is running and the model is available."
  else if containsSubstr (lowerStr e) "embedding" then
    "I encountered an error while processing your query. Please try again."
  else e

/-- The terminal result `answer_query` returns when retrieval is empty —
note the source dict has no `query` and no `error` key. -/
def emptyRetrievalResult : RagResult :=
  { answer := "I couldn't find any relevant information in the database to answer your query. Please try rephrasing your question or check if the data has been ingested.",
    sources := [], hits := [], retrieval_count := 0, query := none, error := none }

/-- The catch-all error result of `answer_query` for an escaped exception
with text `e`. -/
def catchAllResult (query e : String) : RagResult :=
  { answer := "I encountered an error while processing your query: " ++ rewriteErrorMessage e,
    sources := [], hits := [], retrieval_count := 0, query := some query, error := some e }

/-- `rag_pipeline.answer_query`, as a function of the retrieval outcome and
the generation outcome.  `retrieval` is what `retrieve_top_k` does: `.ok
hits` normally, `.error e` when an exception escapes it into the outer
catch-all (the only statement of the `try` body that could raise).  `gen`
is the generation step: `.ok s` when `call_local_llama` returns the string
`s`, `.error e` when the call raises and the inner `except` substitutes the
count-stating fallback. -/
def answer_query (query : String) (verify_numbers : Bool)
    (retrieval : Except String (List Hit)) (gen : Except String String) : RagResult :=
  match retrieval with
  | .error e => catchAllResult query e
  | .ok hits =>
    if hits.isEmpty then emptyRetrievalResult
    else
      let answer0 :=
        match gen with
        | .ok a =>
          if (stripWS a).data.isEmpty then
            "I couldn't generate a response based on the retrieved context. Please try rephrasing your question."
          else a
        | .error msg =>
          "I encountered an error while generating a response: " ++ msg ++
          ". However, I found " ++ toString hits.length ++
          " relevant document(s) that might help answer your question."
      let answer :=
        if verify_numbers && !answer0.data.isEmpty then
          match verify_numeric_claims answer0 hits with
          | (true, _) => answer0
          | (false, w) => answer0 ++ w
        else answer0
      { answer := answer, sources := hits.map (fun h => h.id), hits := hits,
        retrieval_count := hits.length, query := some query, error := none }

/-! ## Specification-side definitions

These follow the design document's words, to be compared with the
definitions embedded from the source. -/

/-- The rendered context entries of a hit list in ranking order, the entry of
the hit at position `i` carrying the 1-based ordinal `i + 1`. -/
def renderedFrom : Nat → List Hit → List String
  | _, [] => []
  | i, h :: t => renderEntry i h :: renderedFrom (i + 1) t

/-- Spec 4.2 step 4, after the first entry: keep admitting entries while the
cumulative entry-character count stays within the budget; stop for good the
first time an entry would exceed it. -/
def greedyAdmitAux (maxLen : Nat) : Nat → List String → List String
  | _, [] => []
  | cur, e :: es =>
    if cur + e.length > maxLen then []
    else e :: greedyAdmitAux maxLen (cur + e.length) es

/-- Spec 4.2 step 4: the first entry is always admitted, even over budget;
afterwards admission is strictly greedy in order. -/
def greedyAdmit (maxLen : Nat) : List String → List String
  | [] => []
  | e :: es => e :: greedyAdmitAux maxLen e.length es

/-- The claim's reading of the metadata rendering: every present field among
`amount`, `date`, `account_id`, `transaction_id`, `collection`, in that
order, rendered as `key: value` with the key being the field name, joined
by `", "`. -/
def specMetadataFieldNames (p : Payload) : String :=
  String.intercalate ", "
    ((([("amount", p.amount), ("date", p.date), ("account_id", p.account_id),
        ("transaction_id", p.transaction_id), ("collection", p.collection)] :
       List (String × Option String)).filterMap
      (fun kv => kv.2.map (fun v => kv.1 ++ ": " ++ v))))

/-- One field of the amended metadata rendering: a truthy (present,
non-empty) value contributes `label: value`, anything else contributes
nothing. -/
def amendedEntry (label : String) (o : Option String) : List String :=
  match o with
  | some v => if v.isEmpty then [] else [label ++ ": " ++ v]
  | none => []

/-- The amended reading of the metadata rendering: fields with truthy
(non-empty) values, in the same fixed order, but labelled `amount`, `date`,
`account`, `transaction_id`, `source` respectively. -/
def specMetadataAmended (p : Payload) : String :=
  String.intercalate ", "
    (amendedEntry "amount" p.amount ++ amendedEntry "date" p.date ++
     amendedEntry "account" p.account_id ++
     amendedEntry "transaction_id" p.transaction_id ++
     amendedEntry "source" p.collection)

/-- Splitting a digit run into the regex scanner's chunks: three characters
at a time, the remainder (one or two digits) as a final short token. -/
def digitChunks : List Char → List String
  | [] => []
  | [c1] => [String.mk [c1]]
  | [c1, c2] => [String.mk [c1, c2]]
  | c1 :: c2 :: c3 :: rest => String.mk [c1, c2, c3] :: digitChunks rest

/-! ## Theorems -/

/-- C6.  On every return path of `answer_query` — success, empty-retrieval
terminal, and catch-all error — the returned record satisfies
`retrieval_count = hits.length` and `sources` is exactly the ids of `hits`
in order. -/
theorem answer_query_count_sources (q : String) (vn : Bool)
    (retrieval : Except String (List Hit)) (gen : Except String String) :
    (answer_query q vn retrieval gen).retrieval_count =
      (answer_query q vn retrieval gen).hits.length ∧
    (answer_query q vn retrieval gen).sources =
      (answer_query q vn retrieval gen).hits.map (fun h => h.id) := by
  unfold answer_query
  cases retrieval with
  | error e => exact ⟨rfl, rfl⟩
  | ok hits =>
    by_cases h : hits.isEmpty <;> simp [h, emptyRetrievalResult]

/-- C2 (code evaluated at the failing input).  When retrieval returns no
hits, the record `answer_query` returns has no `query` key at all — the
claim's `query`-echo fails on the empty-retrieval terminal path (and
`main.py`'s required `ChatResponse.query` field would reject this record). -/
theorem answer_query_empty_retrieval_drops_query (q : String) (vn : Bool)
    (gen : Except String String) :
    (answer_query q vn (Except.ok []) gen).query = none := rfl

/-- C7.  `retrieve_top_k` translates each key/value pair of the filter
mapping into one required field-equals-value condition, conjoined in the
store filter's `must` list in mapping order; an absent or empty mapping
yields no filter restriction. -/
theorem filter_translation (fd : List (String × String)) :
    buildQueryFilter none = none ∧
    buildQueryFilter (some []) = none ∧
    (fd ≠ [] → buildQueryFilter (some fd) =
      some { must := fd.map (fun kv => { key := kv.1, value := kv.2 }) }) := by
  refine ⟨rfl, rfl, fun h => ?_⟩
  cases fd with
  | nil => exact absurd rfl h
  | cons a t => rfl

/-- Witness for C7's theorem at a concrete two-entry filter mapping. -/
theorem filter_translation_witness :
    buildQueryFilter (some [("account_id", "A-17"), ("collection", "ledger")]) =
      some { must := [{ key := "account_id", value := "A-17" },
                      { key := "collection", value := "ledger" }] } :=
  (filter_translation [("account_id", "A-17"), ("collection", "ledger")]).2.2 (by decide)

/-- C9.  `call_local_llama` is total on generation failures: an HTTP
timeout, a transport error, and a well-formed body carrying neither a truthy
`message.content` nor a truthy `response` field all produce a returned
error/apology string — in the embedding the function has type `String`, so
no such condition can reach the generation exception handler of
`answer_query`. -/
theorem call_local_llama_total_on_failures (m : String) (mc rf : Option String) :
    call_local_llama (.exc .timeoutExc) = "Request timed out. Please try again." ∧
    call_local_llama (.exc (.requestExc m)) =
      "I encountered an error connecting to the LLM service: " ++ m ∧
    (truthy mc = false → truthy rf = false →
      call_local_llama (.body mc rf) = "I apologize, but I couldn't generate a response.") := by
  refine ⟨rfl, rfl, fun h1 h2 => ?_⟩
  unfold call_local_llama ollamaHttpCall
  simp [h1, h2]

/-- Witness for C9's theorem: the unparsable-body case at a concrete body
with neither field. -/
theorem call_local_llama_total_on_failures_witness :
    call_local_llama (.body none none) = "I apologize, but I couldn't generate a response." :=
  (call_local_llama_total_on_failures "x" none none).2.2 rfl rfl

/-- C3.  `retrieve_top_k` never raises (its embedded type is a plain hit
list): when the client is down and the single reconnect attempt fails, when
the embedding model fails, and when the store search fails, it returns the
empty sequence. -/
theorem retrieve_top_k_failures_empty (env : StoreEnv) (k : Nat)
    (fd : Option (List (String × String))) :
    (∀ e, env.connected = false → env.reconnect = Except.error e →
      retrieve_top_k env k fd = []) ∧
    (∀ e, env.embed = Except.error e → retrieve_top_k env k fd = []) ∧
    (∀ e v, env.embed = Except.ok v →
      env.search v k (buildQueryFilter fd) = Except.error e →
      retrieve_top_k env k fd = []) := by
  refine ⟨fun e hc hr => ?_, fun e he => ?_, fun e v hv hs => ?_⟩
  · simp [retrieve_top_k, hc, hr]
  · unfold retrieve_top_k retrieveBody
    cases hcon : env.connected <;> cases hrec : env.reconnect <;> simp [he]
  · unfold retrieve_top_k retrieveBody
    cases hcon : env.connected <;> cases hrec : env.reconnect <;> simp [hv, hs]

/-- Witness for C3's theorem: a disconnected store whose reconnect attempt
fails yields the empty hit list. -/
theorem retrieve_top_k_failures_empty_witness :
    retrieve_top_k
      { connected := false, reconnect := Except.error "refused",
        embed := Except.ok [], search := fun _ _ _ => Except.ok [] } 6 none = [] :=
  (retrieve_top_k_failures_empty _ 6 none).1 "refused" rfl rfl

/-- The selection loop after the first admission agrees with the spec-side
greedy tail. -/
theorem contextPartsAux_true (maxLen : Nat) (hits : List Hit) : ∀ i cur,
    contextPartsAux maxLen i cur true hits =
      greedyAdmitAux maxLen cur (renderedFrom i hits) := by
  induction hits with
  | nil => intro i cur; rfl
  | cons h t ih =>
    intro i cur
    unfold contextPartsAux renderedFrom greedyAdmitAux
    by_cases hc : cur + (renderEntry i h).length > maxLen <;> simp [hc, ih]

/-- The spec-side greedy tail admits a prefix of its input. -/
theorem greedyAdmitAux_prefix (maxLen : Nat) : ∀ cur (l : List String),
    greedyAdmitAux maxLen cur l <+: l := by
  intro cur l
  induction l generalizing cur with
  | nil => exact List.nil_prefix
  | cons e es ih =>
    unfold greedyAdmitAux
    by_cases hc : cur + e.length > maxLen
    · simp [hc]
    · simp only [if_neg hc]
      exact List.cons_prefix_cons.mpr ⟨rfl, ih (cur + e.length)⟩

/-- C4.  The entries `build_prompt` admits are computed by the spec-side
strictly greedy rule — the first rendered entry is always admitted (even
alone over budget), and admission stops for good the first time a further
entry would push the cumulative entry-character count (separators excluded)
over the budget — and they form a prefix of the rendered entry list in hit
order. -/
theorem build_prompt_greedy_prefix (maxLen : Nat) (hits : List Hit) :
    contextParts maxLen hits = greedyAdmit maxLen (renderedFrom 0 hits) ∧
    contextParts maxLen hits <+: renderedFrom 0 hits := by
  have heq : contextParts maxLen hits = greedyAdmit maxLen (renderedFrom 0 hits) := by
    cases hits with
    | nil => rfl
    | cons h t =>
      unfold contextParts contextPartsAux renderedFrom greedyAdmit
      simp [contextPartsAux_true]
  refine ⟨heq, heq ▸ ?_⟩
  cases hits with
  | nil => exact List.nil_prefix
  | cons h t =>
    show greedyAdmit maxLen (renderedFrom 0 (h :: t)) <+: renderedFrom 0 (h :: t)
    unfold renderedFrom greedyAdmit
    exact List.cons_prefix_cons.mpr ⟨rfl, greedyAdmitAux_prefix maxLen _ _⟩

/-- A payload carrying only an `account_id`. -/
def pC8 : Payload := { account_id := some "ACC-9" }

/-- C8 (counterexample).  The rendered metadata of a payload with an
`account_id` is not `key: value` with the key being the field name: the
source renders the label `account`, not `account_id` (and `source`, not
`collection`). -/
theorem metadata_field_name_counterexample :
    metadataStr pC8 ≠ specMetadataFieldNames pC8 := by decide

/-- The source's truthiness-guarded metadata item coincides with the amended
rendering of one field. -/
theorem amendedEntry_eq (pre label : String) (hpl : pre = label ++ ": ")
    (o : Option String) :
    (if truthy o then [pre ++ o.getD ""] else []) = amendedEntry label o := by
  subst hpl
  cases o with
  | none => rfl
  | some v => by_cases hv : v.isEmpty <;> simp [truthy, amendedEntry, hv]

/-- C8 (amended).  For every payload, the metadata annotation concatenates,
in the fixed order `amount`, `date`, `account_id`, `transaction_id`,
`collection`, exactly the fields with truthy (present and non-empty) values,
joined by `", "`, each rendered as `label: value` where the labels are
`amount`, `date`, `account`, `transaction_id`, `source` respectively. -/
theorem metadata_rendering (p : Payload) :
    metadataStr p = specMetadataAmended p := by
  unfold metadataStr specMetadataAmended metadataParts
  rw [amendedEntry_eq "amount: " "amount" (by decide),
    amendedEntry_eq "date: " "date" (by decide),
    amendedEntry_eq "account: " "account" (by decide),
    amendedEntry_eq "transaction_id: " "transaction_id" (by decide),
    amendedEntry_eq "source: " "source" (by decide)]

/-- Dropping commas and currency signs is idempotent. -/
theorem normalizeAmount_idem (s : String) :
    normalizeAmount (normalizeAmount s) = normalizeAmount s := by
  unfold normalizeAmount
  congr 1
  simp only [List.filter_filter]
  apply List.filter_congr
  intro a _
  by_cases h1 : a = ',' <;> by_cases h2 : a = '$' <;> simp [h1, h2]

/-- The hit amounts `verify_numeric_claims` collects are already normalized:
re-normalizing them (as the membership test of the source does) changes
nothing. -/
theorem hitAmountsOf_norm_fixed (hits : List Hit) :
    (hitAmountsOf hits).map normalizeAmount = hitAmountsOf hits := by
  unfold hitAmountsOf
  rw [List.map_map]
  exact List.map_congr_left (fun a _ => normalizeAmount_idem a)

/-- `verify_numeric_claims` with the redundant second normalization of the
hit amounts removed: the membership test compares single normalizations. -/
theorem verify_eq (answer : String) (hits : List Hit) :
    verify_numeric_claims answer hits =
      (let tokens := findAmounts answer
       let unmatched := tokens.filter
         (fun t => !(hitAmountsOf hits).contains (normalizeAmount t))
       if tokens.isEmpty then (true, "")
       else if !unmatched.isEmpty then (false, mkWarning unmatched) else (true, "")) := by
  unfold verify_numeric_claims verifyMismatches
  rw [hitAmountsOf_norm_fixed]

/-- C5.  `verify_numeric_claims` returns `(true, "")` whenever the answer
contains no token of the extraction pattern, regardless of the hits; it
returns `(true, "")` when every extracted token, normalized (commas and
currency signs stripped), is a member of the hits' normalized `amount`
values; and when some token is unmatched it returns `(false, w)` where `w`
is the warning naming exactly the unmatched tokens, in original form and
extraction order. -/
theorem verify_numeric_claims_spec (answer : String) (hits : List Hit) :
    (findAmounts answer = [] → verify_numeric_claims answer hits = (true, "")) ∧
    ((∀ t ∈ findAmounts answer, normalizeAmount t ∈ hitAmountsOf hits) →
      verify_numeric_claims answer hits = (true, "")) ∧
    ((∃ t ∈ findAmounts answer, normalizeAmount t ∉ hitAmountsOf hits) →
      verify_numeric_claims answer hits =
        (false, mkWarning ((findAmounts answer).filter
          (fun t => !(hitAmountsOf hits).contains (normalizeAmount t))))) := by
  refine ⟨fun h => ?_, fun hall => ?_, fun hex => ?_⟩
  · rw [verify_eq]
    simp [h]
  · have hunm : (findAmounts answer).filter
        (fun t => !(hitAmountsOf hits).contains (normalizeAmount t)) = [] := by
      rw [List.filter_eq_nil_iff]
      intro t ht
      simp [List.contains, hall t ht]
    rw [verify_eq]
    simp only []
    split
    · rfl
    · rw [hunm]
      rfl
  · obtain ⟨t, ht, hnot⟩ := hex
    have h1 : (findAmounts answer).isEmpty = false := by
      cases hfa : findAmounts answer with
      | nil => rw [hfa] at ht; cases ht
      | cons a l => rfl
    have h2 : t ∈ (findAmounts answer).filter
        (fun t => !(hitAmountsOf hits).contains (normalizeAmount t)) := by
      rw [List.mem_filter]
      exact ⟨ht, by simp [List.contains, hnot]⟩
    have h3 : ((findAmounts answer).filter
        (fun t => !(hitAmountsOf hits).contains (normalizeAmount t))).isEmpty = false := by
      cases hfl : (findAmounts answer).filter
          (fun t => !(hitAmountsOf hits).contains (normalizeAmount t)) with
      | nil => rw [hfl] at h2; cases h2
      | cons a l => rfl
    rw [verify_eq]
    simp only []
    rw [h1, h3]
    rfl

/-- Witness for C5's theorem: an answer naming an amount absent from the
single hit fails verification with a warning naming that token. -/
theorem verify_numeric_claims_spec_witness :
    verify_numeric_claims "The total was $2,000."
      [{ id := "d1", score := 0, payload := { amount := some "1000" } }] =
      (false, mkWarning ["2,000"]) := by
  have h := (verify_numeric_claims_spec "The total was $2,000."
    [{ id := "d1", score := 0, payload := { amount := some "1000" } }]).2.2
    ⟨"2,000", by decide, by decide⟩
  rw [h]
  rfl

/-- Three retrieved hits, as in the design document's generation-timeout
scenario. -/
def hitsC1 : List Hit :=
  [{ id := "d1", score := 9, payload := { text := some "Quarterly audit summary." } },
   { id := "d2", score := 8, payload := { text := some "Ledger reconciliation notes." } },
   { id := "d3", score := 7, payload := { text := some "Vendor payment review." } }]

/-- `verify_numeric_claims` trivially passes on the generation client's
timeout message, which carries no numeric token. -/
theorem verify_timeout_message (hs : List Hit) :
    verify_numeric_claims "Request timed out. Please try again." hs = (true, "") := by
  unfold verify_numeric_claims
  have h : findAmounts "Request timed out. Please try again." = [] := by decide
  rw [h]
  rfl

/-- C1 (counterexample).  With three hits retrieved and the Generator timing
out, `answer_query` keeps `hits` and leaves `error` unset, but its answer is
the generation client's own timeout message, which nowhere states the
retrieval count — the digit 3 does not occur in it. -/
theorem generation_timeout_states_no_count :
    (answer_query "q" true (Except.ok hitsC1)
        (Except.ok (call_local_llama (.exc .timeoutExc)))).answer =
      "Request timed out. Please try again." ∧
    (answer_query "q" true (Except.ok hitsC1)
        (Except.ok (call_local_llama (.exc .timeoutExc)))).error = none ∧
    (answer_query "q" true (Except.ok hitsC1)
        (Except.ok (call_local_llama (.exc .timeoutExc)))).hits.length = 3 ∧
    containsSubstr
      (answer_query "q" true (Except.ok hitsC1)
        (Except.ok (call_local_llama (.exc .timeoutExc)))).answer "3" = false := by
  refine ⟨?_, rfl, rfl, ?_⟩ <;> decide

/-- A member that fails the predicate survives `dropWhile`. -/
theorem mem_dropWhile_of_not (p : Char → Bool) (l : List Char) (c : Char)
    (hc : c ∈ l) (hpc : p c = false) : c ∈ l.dropWhile p := by
  induction l with
  | nil => cases hc
  | cons a t ih =>
    rw [List.dropWhile_cons]
    by_cases ha : p a = true
    · simp only [ha, if_true]
      rcases List.mem_cons.mp hc with rfl | hmem
      · rw [hpc] at ha
        cases ha
      · exact ih hmem
    · simp only [Bool.not_eq_true] at ha
      simp only [ha, Bool.false_eq_true, if_false]
      exact hc

/-- A string containing a non-whitespace character strips to a non-empty
string. -/
theorem stripWS_data_nonempty (s : String) (c : Char) (hc : c ∈ s.data)
    (hcs : isSpaceChar c = false) : (stripWS s).data.isEmpty = false := by
  apply List.isEmpty_eq_false.mpr
  apply List.ne_nil_of_mem (a := c)
  show c ∈ ((s.data.dropWhile isSpaceChar).reverse.dropWhile isSpaceChar).reverse
  exact List.mem_reverse.mpr (mem_dropWhile_of_not _ _ c
    (List.mem_reverse.mpr (mem_dropWhile_of_not _ _ c hc hcs)) hcs)

/-- `verify_numeric_claims` either passes with an empty warning or fails. -/
theorem verify_shape (a : String) (hs : List Hit) :
    verify_numeric_claims a hs = (true, "") ∨ (verify_numeric_claims a hs).1 = false := by
  unfold verify_numeric_claims
  by_cases h1 : (findAmounts a).isEmpty
  · simp [h1]
  · by_cases h2 : (verifyMismatches (findAmounts a) (hitAmountsOf hs)).isEmpty <;>
      simp [h1, h2]

/-- C1 (amended).  When retrieval returns a non-empty hit list and the
Generator call fails by timeout or transport failure, `answer_query` does
not propagate the error: `hits`, `retrieval_count`, `sources` and `query`
are assembled normally and `error` stays unset.  The answer, however, is
call_local_llama's own error message — "Request timed out. Please try
again." on timeout, "I encountered an error connecting to the LLM service:
<msg>" on transport failure — never the count-stating fallback, which
`answer_query` produces only when the generator call raises an exception.
When `verify_numbers` is on, the transport message additionally receives the
numeric-verification warning as a suffix exactly when its digits fail
verification against the hits (the timeout message contains no digits and
is never extended). -/
theorem generation_failure_fallback (q m : String) (hits : List Hit) (vn : Bool)
    (h : hits ≠ []) :
    (answer_query q vn (Except.ok hits) (Except.ok (call_local_llama (.exc .timeoutExc))) =
      { answer := "Request timed out. Please try again.",
        sources := hits.map (fun h => h.id), hits := hits,
        retrieval_count := hits.length, query := some q, error := none }) ∧
    (answer_query q vn (Except.ok hits)
        (Except.ok (call_local_llama (.exc (.requestExc m)))) =
      { answer :=
          if vn then
            ("I encountered an error connecting to the LLM service: " ++ m) ++
              (verify_numeric_claims
                ("I encountered an error connecting to the LLM service: " ++ m) hits).2
          else "I encountered an error connecting to the LLM service: " ++ m,
        sources := hits.map (fun h => h.id), hits := hits,
        retrieval_count := hits.length, query := some q, error := none }) := by
  have hne : hits.isEmpty = false := by
    cases hits with
    | nil => exact absurd rfl h
    | cons a l => rfl
  constructor
  · have hcall : call_local_llama (.exc .timeoutExc) =
        "Request timed out. Please try again." := rfl
    have hstrip : (stripWS "Request timed out. Please try again.").data.isEmpty = false := by
      decide
    have hne2 : ("Request timed out. Please try again." : String).data.isEmpty = false := by
      decide
    unfold answer_query
    cases vn with
    | false =>
      simp only [hcall, hne, Bool.false_eq_true, if_false, hstrip, Bool.false_and]
    | true =>
      simp only [hcall, hne, Bool.false_eq_true, if_false, hstrip, hne2,
        verify_timeout_message hits, Bool.true_and, Bool.not_false, if_true]
  · have hcall : call_local_llama (.exc (.requestExc m)) =
        "I encountered an error connecting to the LLM service: " ++ m := rfl
    have hI : ('I' : Char) ∈
        ("I encountered an error connecting to the LLM service: " ++ m).data := by
      rw [String.data_append]
      exact List.mem_append_left _ (by decide)
    have hbase :
        ("I encountered an error connecting to the LLM service: " ++ m).data.isEmpty = false :=
      List.isEmpty_eq_false.mpr (List.ne_nil_of_mem hI)
    have hstrip :
        (stripWS ("I encountered an error connecting to the LLM service: " ++ m)).data.isEmpty =
          false :=
      stripWS_data_nonempty _ 'I' hI (by decide)
    unfold answer_query
    cases vn with
    | false =>
      simp only [hcall, hne, Bool.false_eq_true, if_false, hstrip, Bool.false_and]
    | true =>
      simp only [hcall, hne, Bool.false_eq_true, if_false, hstrip, hbase,
        Bool.true_and, Bool.not_false, if_true]
      rcases verify_shape ("I encountered an error connecting to the LLM service: " ++ m) hits
        with hv | hv
      · rw [hv]
        simp
      · rcases hpair : verify_numeric_claims
            ("I encountered an error connecting to the LLM service: " ++ m) hits with ⟨b, w⟩
        rw [hpair] at hv
        cases hv
        simp

/-- Witness for C1's amended theorem: the transport-failure half at a
digit-bearing client message, which gains a verification warning naming
"111" on top of the client's own error text. -/
theorem generation_failure_fallback_witness :
    answer_query "q7" true (Except.ok hitsC1)
        (Except.ok (call_local_llama (.exc (.requestExc "[Errno 111] Connection refused")))) =
      { answer :=
          "I encountered an error connecting to the LLM service: [Errno 111] Connection refused"
            ++ mkWarning ["111"],
        sources := ["d1", "d2", "d3"], hits := hitsC1,
        retrieval_count := 3, query := some "q7", error := none } := by
  rw [(generation_failure_fallback "q7" "[Errno 111] Connection refused" hitsC1 true
    (by decide)).2]
  rfl

/-- A digit is not a comma. -/
theorem digit_ne_comma {c : Char} (h : isDigitChar c = true) : c ≠ ',' := by
  intro he
  rw [he] at h
  exact absurd h (by decide)

/-- A digit is not a dollar sign. -/
theorem digit_ne_dollar {c : Char} (h : isDigitChar c = true) : c ≠ '$' := by
  intro he
  rw [he] at h
  exact absurd h (by decide)

/-- A digit is not a dot. -/
theorem digit_ne_dot {c : Char} (h : isDigitChar c = true) : c ≠ '.' := by
  intro he
  rw [he] at h
  exact absurd h (by decide)

/-- A digit is not whitespace. -/
theorem digit_not_space {c : Char} (h : isDigitChar c = true) : isSpaceChar c = false := by
  unfold isSpaceChar
  by_cases h1 : c = ' '
  · rw [h1] at h; exact absurd h (by decide)
  by_cases h2 : c = '\t'
  · rw [h2] at h; exact absurd h (by decide)
  by_cases h3 : c = '\n'
  · rw [h3] at h; exact absurd h (by decide)
  by_cases h4 : c = Char.ofNat 11
  · rw [h4] at h; exact absurd h (by decide)
  by_cases h5 : c = Char.ofNat 12
  · rw [h5] at h; exact absurd h (by decide)
  by_cases h6 : c = '\r'
  · rw [h6] at h; exact absurd h (by decide)
  simp [h1, h2, h3, h4, h5, h6]

/-- `(?:,\d{3})*` matches nothing when the input does not start with a comma. -/
theorem takeCommaGroups_cons_ne (c : Char) (t : List Char) (hc : c ≠ ',') :
    takeCommaGroups (c :: t) = ([], c :: t) := by
  rcases t with _ | ⟨d1, _ | ⟨d2, _ | ⟨d3, r⟩⟩⟩ <;> simp [takeCommaGroups, hc]

/-- `(?:\.\d+)?` matches nothing when the input does not start with a dot. -/
theorem takeFraction_cons_ne (c : Char) (t : List Char) (hc : c ≠ '.') :
    takeFraction (c :: t) = ([], c :: t) := by
  simp [takeFraction, hc]

/-- Digit-run chunks are never empty for a non-empty run. -/
theorem digitChunks_ne_nil (cs : List Char) (h : cs ≠ []) : digitChunks cs ≠ [] := by
  rcases cs with _ | ⟨c1, _ | ⟨c2, _ | ⟨c3, r⟩⟩⟩
  · exact absurd rfl h
  all_goals simp [digitChunks]

/-- A run of four or more digits splits into at least two chunks. -/
theorem digitChunks_length_ge_two (cs : List Char) (h : 4 ≤ cs.length) :
    2 ≤ (digitChunks cs).length := by
  rcases cs with _ | ⟨c1, _ | ⟨c2, _ | ⟨c3, r⟩⟩⟩ <;> simp at h
  have hr : r ≠ [] := by
    intro he
    rw [he] at h
    simp at h
  have := digitChunks_ne_nil r hr
  have : 1 ≤ (digitChunks r).length := List.length_pos.mpr this
  simp [digitChunks]
  omega

/-- Every chunk of a digit run has at most three characters, drawn from the
run. -/
theorem digitChunks_props : ∀ (n : Nat) (cs : List Char), cs.length ≤ n →
    ∀ t ∈ digitChunks cs, t.length ≤ 3 ∧ (∀ c ∈ t.data, c ∈ cs) := by
  intro n
  induction n with
  | zero =>
    intro cs hl t ht
    have : cs = [] := List.eq_nil_of_length_eq_zero (Nat.le_zero.mp hl)
    rw [this] at ht
    cases ht
  | succ m ih =>
    intro cs hl t ht
    rcases cs with _ | ⟨c1, _ | ⟨c2, _ | ⟨c3, r⟩⟩⟩
    · cases ht
    · simp [digitChunks] at ht
      subst ht
      exact ⟨by simp [String.length], by intro c hc; simpa using hc⟩
    · simp [digitChunks] at ht
      subst ht
      exact ⟨by simp [String.length], by intro c hc; simpa using hc⟩
    · simp only [digitChunks, List.mem_cons] at ht
      rcases ht with rfl | ht'
      · refine ⟨by simp [String.length], fun c hc => ?_⟩
        simp at hc
        rcases hc with rfl | rfl | rfl <;> simp
      · have hlr : r.length ≤ m := by
          simp only [List.length_cons] at hl
          omega
        obtain ⟨h1, h2⟩ := ih r hlr t ht'
        exact ⟨h1, fun c hc => by simp [h2 c hc]⟩

/-- Normalization leaves an all-digit string unchanged. -/
theorem normalizeAmount_digits (l : List Char) (h : ∀ c ∈ l, isDigitChar c = true) :
    normalizeAmount (String.mk l) = String.mk l := by
  unfold normalizeAmount
  congr 1
  show (l.filter _).filter _ = l
  have h1 : l.filter (fun c => decide (c ≠ ',')) = l :=
    List.filter_eq_self.mpr (fun a ha => by simp [digit_ne_comma (h a ha)])
  rw [h1]
  exact List.filter_eq_self.mpr (fun a ha => by simp [digit_ne_dollar (h a ha)])

/-- The digit head of a successful `\d{1,3}` match has at most three
characters. -/
theorem takeDigits13_some (cs ds r : List Char) (h : takeDigits13 cs = some (ds, r)) :
    ds.length ≤ 3 := by
  rcases cs with _ | ⟨c1, _ | ⟨c2, _ | ⟨c3, t⟩⟩⟩ <;>
    simp only [takeDigits13] at h
  · cases h
  all_goals
    split_ifs at h <;> cases h <;>
      simp only [List.length_cons, List.length_nil] <;> omega

/-- A non-empty `(?:,\d{3})*` match starts with a comma. -/
theorem takeCommaGroups_fst (cs : List Char) :
    (takeCommaGroups cs).1 = [] ∨ ',' ∈ (takeCommaGroups cs).1 := by
  rcases cs with _ | ⟨c, _ | ⟨d1, _ | ⟨d2, _ | ⟨d3, rest⟩⟩⟩⟩
  · exact Or.inl rfl
  · exact Or.inl rfl
  · exact Or.inl rfl
  · exact Or.inl rfl
  · by_cases hcond : (c = ',' && isDigitChar d1 && isDigitChar d2 && isDigitChar d3) = true
    · right
      have hc : c = ',' := by
        simp only [Bool.and_eq_true, decide_eq_true_eq] at hcond
        exact hcond.1.1.1
      simp only [takeCommaGroups, hcond, if_true]
      rw [hc]
      simp
    · left
      simp [takeCommaGroups, hcond]

/-- A non-empty `(?:\.\d+)?` match starts with a dot. -/
theorem takeFraction_fst (cs : List Char) :
    (takeFraction cs).1 = [] ∨ '.' ∈ (takeFraction cs).1 := by
  rcases cs with _ | ⟨c, rest⟩
  · exact Or.inl rfl
  · by_cases hc : c = '.'
    · by_cases hds : (rest.takeWhile isDigitChar).isEmpty
      · left
        simp [takeFraction, hc, hds]
      · right
        simp [takeFraction, hc, hds]
    · left
      simp [takeFraction, hc]

/-- A captured token containing neither a comma nor a dot is just its digit
head: at most three characters.  This is the containing-scope fact behind
C10 — the pattern can never capture four or more comma-free digits in one
token. -/
theorem matchNumberCore_token_shape (cs2 tok rest : List Char)
    (h : matchNumberCore cs2 = some (tok, rest))
    (hnc : ',' ∉ tok) (hnd : '.' ∉ tok) : tok.length ≤ 3 := by
  unfold matchNumberCore at h
  rcases htd : takeDigits13 cs2 with _ | ⟨ds, r1⟩ <;> rw [htd] at h
  · cases h
  · simp only [Option.some.injEq, Prod.mk.injEq] at h
    obtain ⟨h1, h2⟩ := h
    rcases takeCommaGroups_fst r1 with hg | hg
    · rcases takeFraction_fst (takeCommaGroups r1).2 with hf | hf
      · rw [hg, hf] at h1
        simp only [List.append_nil] at h1
        subst h1
        exact takeDigits13_some cs2 ds r1 htd
      · exact absurd (h1 ▸ List.mem_append_right _ hf) hnd
    · exact absurd (h1 ▸ List.mem_append_left _ (List.mem_append_right _ hg)) hnc

/-- Every extracted token without commas and dots has at most three
characters, for every input. -/
theorem findAmountsAux_token_shape : ∀ (fuel : Nat) (cs : List Char) (t : String),
    t ∈ findAmountsAux fuel cs → ',' ∉ t.data → '.' ∉ t.data → t.length ≤ 3 := by
  intro fuel
  induction fuel with
  | zero =>
    intro cs t ht
    simp [findAmountsAux] at ht
  | succ f ih =>
    intro cs t ht hnc hnd
    cases cs with
    | nil => simp [findAmountsAux] at ht
    | cons c cs' =>
      simp only [findAmountsAux] at ht
      rcases hm : matchNumberAt (c :: cs') with _ | ⟨tok, rest⟩ <;> rw [hm] at ht
      · exact ih cs' t ht hnc hnd
      · rcases List.mem_cons.mp ht with rfl | ht'
        · exact matchNumberCore_token_shape _ tok rest hm hnc hnd
        · exact ih rest t ht' hnc hnd

/-- `(?:,\d{3})*` matches nothing on digit-free input. -/
theorem takeCommaGroups_no_digits (z : List Char)
    (hz : ∀ c ∈ z, isDigitChar c = false) : takeCommaGroups z = ([], z) := by
  rcases z with _ | ⟨c, _ | ⟨d1, _ | ⟨d2, _ | ⟨d3, rest⟩⟩⟩⟩
  · rfl
  · rfl
  · rfl
  · rfl
  · have h1 : isDigitChar d1 = false := hz d1 (by simp)
    simp [takeCommaGroups, h1]

/-- `(?:\.\d+)?` matches nothing on digit-free input. -/
theorem takeFraction_no_digits (z : List Char)
    (hz : ∀ c ∈ z, isDigitChar c = false) : takeFraction z = ([], z) := by
  rcases z with _ | ⟨c, rest⟩
  · rfl
  · by_cases hc : c = '.'
    · have hds : (rest.takeWhile isDigitChar).isEmpty = true := by
        cases rest with
        | nil => rfl
        | cons a t =>
          have ha := hz a (by simp)
          simp [List.takeWhile_cons, ha]
      simp [takeFraction, hc, hds]
    · simp [takeFraction, hc]

/-- `\d{1,3}` on a digit run followed by digit-free text takes the first (up
to) three digits of the run. -/
theorem takeDigits13_digits_lead (ds z : List Char)
    (hds : ∀ c ∈ ds, isDigitChar c = true) (hne : ds ≠ [])
    (hz : ∀ c ∈ z, isDigitChar c = false) :
    takeDigits13 (ds ++ z) = some (ds.take 3, ds.drop 3 ++ z) := by
  rcases ds with _ | ⟨c1, _ | ⟨c2, _ | ⟨c3, r⟩⟩⟩
  · exact absurd rfl hne
  · have h1 := hds c1 (by simp)
    cases z with
    | nil => simp [takeDigits13, h1]
    | cons zc zr =>
      have hz1 := hz zc (by simp)
      simp [takeDigits13, h1, hz1]
  · have h1 := hds c1 (by simp)
    have h2 := hds c2 (by simp)
    cases z with
    | nil => simp [takeDigits13, h1, h2]
    | cons zc zr =>
      have hz1 := hz zc (by simp)
      simp [takeDigits13, h1, h2, hz1]
  · have h1 := hds c1 (by simp)
    have h2 := hds c2 (by simp)
    have h3 := hds c3 (by simp)
    simp [takeDigits13, h1, h2, h3]

/-- The capture group on a digit run followed by digit-free text is the
run's first (up to) three digits. -/
theorem matchNumberCore_digits (ds z : List Char)
    (hds : ∀ c ∈ ds, isDigitChar c = true) (hne : ds ≠ [])
    (hz : ∀ c ∈ z, isDigitChar c = false) :
    matchNumberCore (ds ++ z) = some (ds.take 3, ds.drop 3 ++ z) := by
  unfold matchNumberCore
  rw [takeDigits13_digits_lead ds z hds hne hz]
  simp only []
  rcases hd3 : ds.drop 3 with _ | ⟨e, es⟩
  · rw [List.nil_append, takeCommaGroups_no_digits z hz, takeFraction_no_digits z hz]
    simp
  · have he : isDigitChar e = true := by
      refine hds e (List.drop_subset 3 ds ?_)
      rw [hd3]
      simp
    simp only [List.cons_append]
    rw [takeCommaGroups_cons_ne e (es ++ z) (digit_ne_comma he)]
    rw [takeFraction_cons_ne e (es ++ z) (digit_ne_dot he)]
    simp

/-- The pattern fails at every position of digit-free input. -/
theorem matchNumberAt_no_digits (z : List Char)
    (hz : ∀ c ∈ z, isDigitChar c = false) : matchNumberAt z = none := by
  unfold matchNumberAt
  have hsub : ∀ x ∈ (stripDollar z).dropWhile isSpaceChar, x ∈ z := by
    intro x hx
    have hx1 : x ∈ stripDollar z := (List.dropWhile_sublist _).subset hx
    rcases z with _ | ⟨c, r⟩
    · simpa [stripDollar] using hx1
    · by_cases hc : c = '$'
      · have : x ∈ r := by simpa [stripDollar, hc] using hx1
        exact List.mem_cons_of_mem _ this
      · simpa [stripDollar, hc] using hx1
  rcases hcs2 : (stripDollar z).dropWhile isSpaceChar with _ | ⟨d, t⟩
  · rfl
  · have hd : isDigitChar d = false := by
      refine hz d (hsub d ?_)
      rw [hcs2]
      simp
    simp [matchNumberCore, takeDigits13, hd]

/-- The scan of digit-free input yields no token. -/
theorem findAmountsAux_no_digits : ∀ (fuel : Nat) (z : List Char),
    (∀ c ∈ z, isDigitChar c = false) → findAmountsAux fuel z = [] := by
  intro fuel
  induction fuel with
  | zero =>
    intro z hz
    cases z <;> rfl
  | succ f ih =>
    intro z hz
    cases z with
    | nil => rfl
    | cons c t =>
      simp only [findAmountsAux, matchNumberAt_no_digits (c :: t) hz]
      exact ih t (fun x hx => hz x (List.mem_cons_of_mem _ hx))

/-- The pattern on a digit run with digit-free text appended matches the
run's first (up to) three digits. -/
theorem matchNumberAt_digits_suffix (ds z : List Char)
    (hds : ∀ c ∈ ds, isDigitChar c = true) (hne : ds ≠ [])
    (hz : ∀ c ∈ z, isDigitChar c = false) :
    matchNumberAt (ds ++ z) = some (ds.take 3, ds.drop 3 ++ z) := by
  obtain ⟨d, ds', rfl⟩ : ∃ d t, ds = d :: t := by
    cases ds with
    | nil => exact absurd rfl hne
    | cons a t => exact ⟨a, t, rfl⟩
  have hd := hds d (by simp)
  unfold matchNumberAt
  have h1 : stripDollar ((d :: ds') ++ z) = (d :: ds') ++ z := by
    simp [stripDollar, digit_ne_dollar hd]
  have h2 : ((d :: ds') ++ z).dropWhile isSpaceChar = (d :: ds') ++ z := by
    simp [List.dropWhile_cons, digit_not_space hd]
  rw [h1, h2]
  exact matchNumberCore_digits (d :: ds') z hds hne hz

/-- At a position whose text is digit-free material followed by a digit run
and digit-free text, the pattern either fails or captures the run's first
(up to) three digits. -/
theorem matchNumberAt_skip (a : Char) (w ds z : List Char)
    (hw : ∀ c ∈ a :: w, isDigitChar c = false)
    (hds : ∀ c ∈ ds, isDigitChar c = true) (hne : ds ≠ [])
    (hz : ∀ c ∈ z, isDigitChar c = false) :
    matchNumberAt ((a :: w) ++ ds ++ z) = none ∨
    matchNumberAt ((a :: w) ++ ds ++ z) = some (ds.take 3, ds.drop 3 ++ z) := by
  obtain ⟨d, ds', rfl⟩ : ∃ d t, ds = d :: t := by
    cases ds with
    | nil => exact absurd rfl hne
    | cons b t => exact ⟨b, t, rfl⟩
  have hd := hds d (by simp)
  obtain ⟨v, hv1, hv2⟩ :
      ∃ v, stripDollar ((a :: w) ++ (d :: ds') ++ z) = v ++ ((d :: ds') ++ z) ∧
        ∀ c ∈ v, isDigitChar c = false := by
    by_cases ha : a = '$'
    · exact ⟨w, by simp [stripDollar, ha], fun c hc => hw c (List.mem_cons_of_mem _ hc)⟩
    · exact ⟨a :: w, by simp [stripDollar, ha], hw⟩
  unfold matchNumberAt
  rw [hv1, List.dropWhile_append]
  have hdz : ((d :: ds') ++ z).dropWhile isSpaceChar = (d :: ds') ++ z := by
    simp [List.dropWhile_cons, digit_not_space hd]
  by_cases hvd : (v.dropWhile isSpaceChar).isEmpty
  · right
    rw [if_pos hvd, hdz]
    exact matchNumberCore_digits (d :: ds') z hds (by simp) hz
  · left
    rw [if_neg hvd]
    rcases hdw : v.dropWhile isSpaceChar with _ | ⟨h0, t0⟩
    · rw [hdw] at hvd
      exact absurd rfl hvd
    · have hsub : List.Sublist (List.dropWhile isSpaceChar v) v := List.dropWhile_sublist _
      have hh0 : isDigitChar h0 = false := by
        refine hv2 h0 (hsub.subset ?_)
        rw [hdw]
        simp
      simp [List.cons_append, matchNumberCore, takeDigits13, hh0]

/-- A short digit run is one chunk. -/
theorem digitChunks_small (ds : List Char) (hne : ds ≠ []) (h3 : ds.length ≤ 3) :
    digitChunks ds = [String.mk ds] := by
  rcases ds with _ | ⟨c1, _ | ⟨c2, _ | ⟨c3, r⟩⟩⟩
  · exact absurd rfl hne
  · rfl
  · rfl
  · have hr : r = [] := by
      simp only [List.length_cons] at h3
      exact List.eq_nil_of_length_eq_zero (by omega)
    subst hr
    rfl

/-- Chunking a digit run takes its first three digits and recurses. -/
theorem digitChunks_take_drop (ds : List Char) (h4 : 4 ≤ ds.length) :
    digitChunks ds = String.mk (ds.take 3) :: digitChunks (ds.drop 3) := by
  rcases ds with _ | ⟨c1, _ | ⟨c2, _ | ⟨c3, r⟩⟩⟩
  · simp at h4
  · simp at h4
  · simp at h4
  · rfl

/-- After the run's first chunk is captured, the rest of the scan yields the
remaining chunks (the induction hypothesis of the embedded-scan lemma is
taken as an argument). -/
theorem contChunks (f : Nat)
    (ih : ∀ (w ds z : List Char), (∀ c ∈ w, isDigitChar c = false) →
      (∀ c ∈ ds, isDigitChar c = true) → ds ≠ [] →
      (∀ c ∈ z, isDigitChar c = false) → (w ++ ds ++ z).length ≤ f →
      findAmountsAux f (w ++ ds ++ z) = digitChunks ds)
    (ds z : List Char)
    (hds : ∀ c ∈ ds, isDigitChar c = true) (hne : ds ≠ [])
    (hz : ∀ c ∈ z, isDigitChar c = false)
    (hfl : (ds.drop 3 ++ z).length ≤ f) :
    String.mk (ds.take 3) :: findAmountsAux f (ds.drop 3 ++ z) = digitChunks ds := by
  by_cases h3 : ds.length ≤ 3
  · have hdrop : ds.drop 3 = [] := by
      apply List.eq_nil_of_length_eq_zero
      simp [List.length_drop]
      omega
    rw [hdrop, List.nil_append, findAmountsAux_no_digits f z hz,
      List.take_of_length_le h3, digitChunks_small ds hne h3]
  · have h4 : 4 ≤ ds.length := by omega
    rw [digitChunks_take_drop ds h4]
    congr 1
    have hdne : ds.drop 3 ≠ [] := by
      intro h0
      have := congrArg List.length h0
      simp [List.length_drop] at this
      omega
    have := ih [] (ds.drop 3) z (by simp)
      (fun c hc => hds c (List.drop_subset 3 ds hc)) hdne hz
      (by simp [List.length_drop] at hfl ⊢; omega)
    simpa using this

/-- The scan of digit-free text, a digit run and digit-free text yields
exactly the run's chunks of three. -/
theorem findAmountsAux_embedded : ∀ (fuel : Nat) (w ds z : List Char),
    (∀ c ∈ w, isDigitChar c = false) → (∀ c ∈ ds, isDigitChar c = true) →
    ds ≠ [] → (∀ c ∈ z, isDigitChar c = false) →
    (w ++ ds ++ z).length ≤ fuel →
    findAmountsAux fuel (w ++ ds ++ z) = digitChunks ds := by
  intro fuel
  induction fuel with
  | zero =>
    intro w ds z hw hds hne hz hfuel
    exfalso
    rcases ds with _ | ⟨d, ds'⟩
    · exact hne rfl
    · simp [List.length_append] at hfuel
  | succ f ih =>
    intro w ds z hw hds hne hz hfuel
    cases w with
    | nil =>
      obtain ⟨d, ds', rfl⟩ : ∃ d t, ds = d :: t := by
        cases ds with
        | nil => exact absurd rfl hne
        | cons b t => exact ⟨b, t, rfl⟩
      have hbound : ((d :: ds').drop 3 ++ z).length ≤ f := by
        simp only [List.nil_append, List.length_append, List.length_cons] at hfuel
        simp only [List.length_append, List.length_drop, List.length_cons]
        omega
      have hm := matchNumberAt_digits_suffix (d :: ds') z hds (by simp) hz
      simp only [List.cons_append, List.append_eq] at hm
      simp only [List.nil_append, List.cons_append, findAmountsAux, List.append_eq]
      rw [hm]
      exact contChunks f ih (d :: ds') z hds (by simp) hz hbound
    | cons a w' =>
      rcases matchNumberAt_skip a w' ds z hw hds hne hz with hm | hm <;>
        simp only [List.cons_append, List.append_eq] at hm <;>
        simp only [List.cons_append, findAmountsAux, List.append_eq] <;>
        rw [hm]
      · refine ih w' ds z (fun c hc => hw c (List.mem_cons_of_mem _ hc)) hds hne hz ?_
        simp only [List.cons_append, List.length_cons, List.length_append] at hfuel ⊢
        omega
      · refine contChunks f ih ds z hds hne hz ?_
        simp only [List.cons_append, List.length_cons, List.length_append] at hfuel
        simp only [List.length_append, List.length_drop]
        omega

/-- Verification against a single hit whose amount is the run verbatim fails
with a warning naming the fragments, whenever the extracted tokens are the
run's chunks. -/
theorem verify_single_verbatim_fails (answer : String) (num : List Char)
    (hds : ∀ c ∈ num, isDigitChar c = true) (hlen : 4 ≤ num.length)
    (hfa : findAmounts answer = digitChunks num) (idv : String) (sc : Int) :
    verify_numeric_claims answer
        [{ id := idv, score := sc, payload := { amount := some (String.mk num) } }] =
      (false, mkWarning (digitChunks num)) := by
  have hprops := digitChunks_props num.length num (Nat.le_refl _)
  have hne : digitChunks num ≠ [] := by
    apply digitChunks_ne_nil
    intro h0
    rw [h0] at hlen
    simp at hlen
  have hempty : (digitChunks num).isEmpty = false := by
    cases hdc : digitChunks num with
    | nil => exact absurd hdc hne
    | cons a l => rfl
  rw [verify_eq]
  simp only []
  rw [hfa]
  have hamt : hitAmountsOf
      [{ id := idv, score := sc, payload := { amount := some (String.mk num) } }] =
      [String.mk num] := by
    unfold hitAmountsOf
    simp [normalizeAmount_digits num hds]
  rw [hamt]
  have hunm : (digitChunks num).filter
      (fun t => !([String.mk num] : List String).contains (normalizeAmount t)) =
      digitChunks num := by
    apply List.filter_eq_self.mpr
    intro t ht
    obtain ⟨hlen3, hchars⟩ := hprops t ht
    have hnorm : normalizeAmount t = t :=
      normalizeAmount_digits t.data (fun c hc => hds c (hchars c hc))
    rw [hnorm]
    have hne2 : t ≠ String.mk num := by
      intro he
      have hl2 : t.length = num.length := by
        rw [he]
        rfl
      omega
    simp [List.contains, hne2]
  rw [hunm]
  simp [hempty]

/-- Hits whose amounts cover both the verbatim four-digit number and the
fragments the extraction pattern splits it into. -/
def hitsC10 : List Hit :=
  [{ id := "a", score := 0, payload := { amount := some "2000" } },
   { id := "b", score := 0, payload := { amount := some "200" } },
   { id := "c", score := 0, payload := { amount := some "0" } }]

/-- C10 (counterexample).  The answer "2000" contains a four-digit number
without comma separators and a hit's `amount` equals it verbatim, yet
verification passes: the split fragments "200" and "0" happen to match other
hits' amounts, so `passed = false` does not hold for every such answer. -/
theorem split_tokens_counterexample :
    (∃ h ∈ hitsC10, h.payload.amount = some "2000") ∧
    verify_numeric_claims "2000" hitsC10 = (true, "") := by
  exact ⟨by decide, by decide⟩

/-- C10 (amended).  For every answer text containing a number of four or
more digits written without comma separators, the extraction pattern of
`verify_numeric_claims` never extracts that number as one token — a captured
token without commas and dots holds at most three digits — so the number can
only be represented by shorter fragments.  When the answer contains no
digits outside that number, the extracted tokens are exactly the number's
fragments of at most three digits each (at least two of them), so with a
single hit whose `amount` equals the number verbatim every fragment is
unmatched and verification returns `passed = false` with a warning naming
the fragments.  This does not extend to answers with other digits around the
number: in "2,2222,222" the comma-grouped tokens reassemble the value 2222,
and verification against the single verbatim hit passes. -/
theorem four_digit_number_splits (pre suf : String) (num : List Char)
    (hpre : ∀ c ∈ pre.data, isDigitChar c = false)
    (hsuf : ∀ c ∈ suf.data, isDigitChar c = false)
    (hds : ∀ c ∈ num, isDigitChar c = true) (hlen : 4 ≤ num.length)
    (idv : String) (sc : Int) :
    (∀ answer : String, String.mk num ∉ findAmounts answer) ∧
    findAmounts (pre ++ String.mk num ++ suf) = digitChunks num ∧
    2 ≤ (digitChunks num).length ∧
    (∀ t ∈ digitChunks num, t.length ≤ 3) ∧
    verify_numeric_claims (pre ++ String.mk num ++ suf)
        [{ id := idv, score := sc, payload := { amount := some (String.mk num) } }] =
      (false, mkWarning (digitChunks num)) ∧
    verify_numeric_claims "2,2222,222"
        [{ id := "x", score := 0, payload := { amount := some "2222" } }] = (true, "") := by
  have hnonempty : num ≠ [] := by
    intro h0
    rw [h0] at hlen
    simp at hlen
  have hfa : findAmounts (pre ++ String.mk num ++ suf) = digitChunks num := by
    unfold findAmounts
    have hdata : (pre ++ String.mk num ++ suf).data = pre.data ++ num ++ suf.data := by
      simp [String.data_append]
    rw [hdata]
    exact findAmountsAux_embedded _ pre.data num suf.data hpre hds hnonempty hsuf
      (Nat.le_refl _)
  refine ⟨?_, hfa, digitChunks_length_ge_two num hlen,
    fun t ht => (digitChunks_props num.length num (Nat.le_refl _) t ht).1,
    verify_single_verbatim_fails _ num hds hlen hfa idv sc, by decide⟩
  intro answer hmem
  have hcomma : ',' ∉ (String.mk num).data := fun hin => absurd (hds _ hin) (by decide)
  have hdot : '.' ∉ (String.mk num).data := fun hin => absurd (hds _ hin) (by decide)
  unfold findAmounts at hmem
  have hlen3 := findAmountsAux_token_shape _ _ _ hmem hcomma hdot
  have : num.length ≤ 3 := hlen3
  omega

/-- Witness for C10's amended theorem at the answer "The total was 2000."
and a single hit with `amount` 2000. -/
theorem four_digit_number_splits_witness :
    findAmounts "The total was 2000." = ["200", "0"] ∧
    verify_numeric_claims "The total was 2000."
        [{ id := "d9", score := 0, payload := { amount := some "2000" } }] =
      (false, mkWarning ["200", "0"]) := by
  have h := four_digit_number_splits "The total was " "." ['2', '0', '0', '0']
    (by decide) (by decide) (by decide) (by decide) "d9" 0
  exact ⟨h.2.1, h.2.2.2.2.1⟩

end Rag
